import Mathlib

/-!
A shallow embedding of `src/parser.rs` (a clang-AST → IR translator) and proofs
about its behaviour.

Modelling conventions:
* Foreign AST cursors and types are identified by natural-number ids; a `World`
  maps ids to their queryable data (kind, spelling, children, ...).  Cursor
  equality in the source (`cursor == def`) is id equality; `canonical()` and
  `definition()` are id-valued fields.
* The `Rc<RefCell<...>>` heap of IR records is modelled by id-indexed stores
  inside the parser context; pointer identity of shared records is id equality.
* `panic!` is `Except.error`; recursion through the world is bounded by fuel
  (fuel exhaustion is also `Except.error "fuel"`, a modelling artifact).
* The logger is modelled by an accumulated list of `(is_err, message)` pairs.
-/

/-- Foreign cursor kinds (the constructors used by the source, plus `other`
for the open remainder of the enumeration). -/
inductive CXCursorKind where
  | StructDecl
  | UnionDecl
  | EnumDecl
  | TypedefDecl
  | VarDecl
  | FunctionDecl
  | FieldDecl
  | EnumConstantDecl
  | ParmDecl
  | NoDeclFound
  | InvalidFile
  | other (n : Nat)
deriving DecidableEq

/-- Foreign type kinds (the constructors used by the source, plus `other`). -/
inductive CXTypeKind where
  | Void
  | Invalid
  | Bool
  | SChar
  | Char_S
  | UChar
  | Char_U
  | UShort
  | UInt
  | ULong
  | ULongLong
  | Short
  | Int
  | Long
  | LongLong
  | Float
  | Double
  | LongDouble
  | Pointer
  | VariableArray
  | DependentSizedArray
  | IncompleteArray
  | Record
  | Typedef
  | Unexposed
  | Enum
  | ConstantArray
  | FunctionProto
  | FunctionNoProto
  | other (n : Nat)
deriving DecidableEq

/-- Foreign calling conventions (recognized set plus the open remainder). -/
inductive CXCallingConv where
  | Default
  | C
  | X86StdCall
  | X86FastCall
  | AAPCS
  | X86_64Win64
  | other (n : Nat)
deriving DecidableEq

/-- Foreign linkage kinds. -/
inductive CXLinkage where
  | External
  | UniqueExternal
  | other (n : Nat)
deriving DecidableEq

/-- Queryable data of one foreign type (`cx::Type`). -/
structure CXTypeData where
  kind : CXTypeKind
  size : Nat
  align : Nat
  isConst : Bool
  isVariadic : Bool
  pointee : Nat
  elem : Nat
  arraySize : Nat
  retType : Nat
  callConv : CXCallingConv
  decl : Nat
  canonicalType : Nat

/-- Queryable data of one foreign cursor (`clang::Cursor`).  `file` is the
source file of `location()` (`none` models a null file). -/
structure CursorData where
  kind : CXCursorKind
  spelling : String
  file : Option String
  locString : String
  canonical : Nat
  definition : Nat
  curType : Nat
  retType : Nat
  enumType : Nat
  enumVal : Int
  bitWidth : Option Nat
  linkage : CXLinkage
  typedefType : Nat
  children : List Nat
  args : List Nat

/-- The foreign AST: cursors and types addressed by id. -/
structure World where
  cursor : Nat → CursorData
  type : Nat → CXTypeData

/-- One provider diagnostic: severity and formatted message. -/
structure Diag where
  severity : Nat
  msg : String

/-- Severity threshold `CXDiagnostic_Error` of the provider. -/
def CXDiagnostic_Error : Nat := 3

/-- An AST session as `parse` observes it: whether index/unit creation failed,
the provider diagnostics, and the children of the translation-unit cursor. -/
structure Session where
  indexNull : Bool
  unitNull : Bool
  diags : List Diag
  rootChildren : List Nat

/-- IR integer kinds (`il::IKind`). -/
inductive IKind where
  | IBool
  | ISChar
  | IUChar
  | IShort
  | IUShort
  | IInt
  | IUInt
  | ILong
  | IULong
  | ILongLong
  | IULongLong
deriving DecidableEq

/-- IR float kinds (`il::FKind`). -/
inductive FKind where
  | FFloat
  | FDouble
deriving DecidableEq

/-- IR ABI tags (`syntax::abi::Abi`, the variants used). -/
inductive Abi where
  | C
  | Stdcall
  | Fastcall
  | Aapcs
  | Win64
deriving DecidableEq

/-- Modelled from the spec: `Layout` is a plain `(size, align)` value
(`types.rs` is not under `src/`). -/
structure Layout where
  size : Nat
  align : Nat
deriving DecidableEq

/-- Modelled from the spec: the IR `Type` variants (`types.rs` is not under
`src/`).  Handles (`TNamed`/`TComp`/`TEnum`) are store ids standing for the
shared reference-counted records. -/
inductive ILType where
  | TVoid
  | TInt (k : IKind) (l : Layout)
  | TFloat (k : FKind) (l : Layout)
  | TPtr (t : ILType) (isConst : Bool) (l : Layout)
  | TArray (t : ILType) (count : Nat) (l : Layout)
  | TFunc (ret : ILType) (args : List (String × ILType)) (variadic : Bool) (abi : Abi)
  | TNamed (h : Nat)
  | TComp (h : Nat)
  | TEnum (h : Nat)

/-- Modelled from the spec: a composite is a struct or a union. -/
inductive CompKind where
  | Struct
  | Union
deriving DecidableEq

/-- Modelled from the spec: `FieldInfo = {name, type, bit_width}`. -/
structure FieldInfo where
  name : String
  ty : ILType
  bit : Option Nat

/-- Modelled from the spec: composite members — a plain field, a nested
anonymous composite, or a nested composite folded together with the named
field exposing it. -/
inductive CompMember where
  | Field (f : FieldInfo)
  | Comp (h : Nat)
  | CompField (h : Nat) (f : FieldInfo)

/-- Modelled from the spec: `CompInfo = {name, kind, members, layout}`. -/
structure CompInfo where
  name : String
  kind : CompKind
  members : List CompMember
  layout : Layout

/-- Modelled from the spec: one enum constant `(name, value)`. -/
structure EnumItem where
  name : String
  val : Int
deriving DecidableEq

/-- Modelled from the spec: `EnumInfo = {name, underlying kind, items, layout}`. -/
structure EnumInfo where
  name : String
  kind : IKind
  items : List EnumItem
  layout : Layout
deriving DecidableEq

/-- Modelled from the spec: `TypeInfo = {name, aliased type}` (typedefs),
created aliasing `Void` and mutated once the underlying type is known. -/
structure TypeInfo where
  name : String
  ty : ILType

/-- Modelled from the spec: `VarInfo = {name, type, is_const}`, used for both
variables and functions. -/
structure VarInfo where
  name : String
  ty : ILType
  is_const : Bool

/-- Modelled from the spec: the `Global` variants.  Each carries the store id
of its shared record. -/
inductive Global where
  | GCompDecl (h : Nat)
  | GEnumDecl (h : Nat)
  | GType (h : Nat)
  | GVar (h : Nat)
  | GFunc (h : Nat)
  | GComp (h : Nat)
  | GEnum (h : Nat)
  | GOther
deriving DecidableEq

/-- The store id held by a `Global`, if any. -/
def Global.handle? : Global → Option Nat
  | .GCompDecl h => some h
  | .GEnumDecl h => some h
  | .GType h => some h
  | .GVar h => some h
  | .GFunc h => some h
  | .GComp h => some h
  | .GEnum h => some h
  | .GOther => none

/-- Modelled from the spec: `Global::compinfo()` extracts the composite handle
(panics on other variants). -/
def Global.compinfo : Global → Except String Nat
  | .GCompDecl h => .ok h
  | .GComp h => .ok h
  | _ => .error "global is not a composite"

/-- Modelled from the spec: `Global::enuminfo()` extracts the enum handle. -/
def Global.enuminfo : Global → Except String Nat
  | .GEnumDecl h => .ok h
  | .GEnum h => .ok h
  | _ => .error "global is not an enum"

/-- Modelled from the spec: `Global::typeinfo()` extracts the alias handle. -/
def Global.typeinfo : Global → Except String Nat
  | .GType h => .ok h
  | _ => .error "global is not a typedef"

/-- Modelled from the spec: `Global::varinfo()` extracts the var/function
handle. -/
def Global.varinfo : Global → Except String Nat
  | .GVar h => .ok h
  | .GFunc h => .ok h
  | _ => .error "global is not a variable"

/-- The configuration surface (`ClangParserOptions`).  `builtin_names` (a
`HashSet<String>` in the source) is a list queried by membership. -/
structure ClangParserOptions where
  builtin_names : List String
  builtins : Bool
  match_pat : List String
  emit_ast : Bool
  fail_on_bitfield : Bool
  fail_on_unknown_type : Bool
  override_enum_ty : Option IKind
  clang_args : List String

/-- The traversal context (`ClangParserCtx`).  `name` is the declaration
registry (an association list keyed by canonical cursor id); the four stores
model the `Rc<RefCell<...>>` heap, `nextId` the allocator; `logs` models the
logger (`(is_err, message)` in emission order); `errCount` is the error
counter (an `int` in the source, only ever incremented from 0). -/
structure ClangParserCtx where
  options : ClangParserOptions
  name : List (Nat × Global)
  globals : List Global
  builtin_defs : List Nat
  logs : List (Bool × String)
  errCount : Nat
  compStore : List (Nat × CompInfo)
  enumStore : List (Nat × EnumInfo)
  typeStore : List (Nat × TypeInfo)
  varStore : List (Nat × VarInfo)
  nextId : Nat

/-- The initial context built at the top of `parse`. -/
def initCtx (options : ClangParserOptions) : ClangParserCtx :=
  { options := options, name := [], globals := [], builtin_defs := [],
    logs := [], errCount := 0,
    compStore := [], enumStore := [], typeStore := [], varStore := [],
    nextId := 0 }

/-- First-match association-list lookup (models `HashMap` lookup keyed by the
canonical cursor). -/
def lookupG : List (Nat × Global) → Nat → Option Global
  | [], _ => none
  | (k, v) :: rest, key => if key = k then some v else lookupG rest key

/-- Association-list lookup in a record store. -/
def lookupStore {α : Type} : List (Nat × α) → Nat → Option α
  | [], _ => none
  | (k, v) :: rest, key => if key = k then some v else lookupStore rest key

/-- In-place update of the record at a store id (models mutation through an
`Rc<RefCell<...>>` borrow). -/
def updateStore {α : Type} (l : List (Nat × α)) (key : Nat) (f : α → α) :
    List (Nat × α) :=
  l.map (fun p => if p.1 = key then (p.1, f p.2) else p)

/-- `log_err_warn`: record an error (incrementing the counter) or a warning. -/
def log_err_warn (ctx : ClangParserCtx) (msg : String) (is_err : Bool) :
    ClangParserCtx :=
  match is_err with
  | true => { ctx with errCount := ctx.errCount + 1, logs := ctx.logs ++ [(true, msg)] }
  | false => { ctx with logs := ctx.logs ++ [(false, msg)] }

/-- `pat` is a leading segment of `s` (character lists). -/
def leadMatch : List Char → List Char → Bool
  | [], _ => true
  | _ :: _, [] => false
  | p :: ps, c :: cs => if p = c then leadMatch ps cs else false

/-- `s` contains `pat` as a contiguous segment (models `str::contains`). -/
def hasSub (pat : List Char) : List Char → Bool
  | [] => leadMatch pat []
  | c :: cs => if leadMatch pat (c :: cs) then true else hasSub pat cs

/-- `s.contains(pat)` on strings. -/
def strContains (s pat : String) : Bool := hasSub pat.data s.data

/-- `match_pattern`: the file-path inclusion filter.  The source takes the
context by mutable reference but only reads `options`; the fold mirrors the
source's `iter().all(...)` loop that sets a `found` flag on every pattern. -/
def match_pattern (world : World) (ctx : ClangParserCtx) (cursorId : Nat) : Bool :=
  match (world.cursor cursorId).file with
  | none => ctx.options.builtins
  | some name =>
    if ctx.options.match_pat = [] then true
    else
      ctx.options.match_pat.foldl
        (fun found pat => if strContains name pat then true else found) false

/-- The underlying integer kind of an enum declaration: the configured
override if present, otherwise the mapping of the foreign enum's underlying
type kind (`decl_name`, lines 84–99). -/
def enum_kind (override : Option IKind) (u : CXTypeKind) : IKind :=
  match override with
  | some t => t
  | none =>
    match u with
    | .SChar => .ISChar
    | .Char_S => .ISChar
    | .UChar => .IUChar
    | .Char_U => .IUChar
    | .UShort => .IUShort
    | .UInt => .IUInt
    | .ULong => .IULong
    | .ULongLong => .IULongLong
    | .Short => .IShort
    | .Int => .IInt
    | .Long => .ILong
    | .LongLong => .ILongLong
    | _ => .IInt

/-- The vacant-entry construction of `decl_name` (lines 68–120): build the
empty shell appropriate to the canonical cursor's declaration kind, allocating
a fresh store id; unknown kinds yield `GOther` with no allocation. -/
def fresh_decl (world : World) (ctx : ClangParserCtx) (cid : Nat) :
    Global × ClangParserCtx :=
  let c := world.cursor cid
  let spelling := c.spelling
  let t := world.type c.curType
  let layout : Layout := ⟨t.size, t.align⟩
  match c.kind with
  | .StructDecl =>
    let h := ctx.nextId
    (Global.GCompDecl h,
     { ctx with nextId := h + 1,
                compStore := (h, ⟨spelling, .Struct, [], layout⟩) :: ctx.compStore })
  | .UnionDecl =>
    let h := ctx.nextId
    (Global.GCompDecl h,
     { ctx with nextId := h + 1,
                compStore := (h, ⟨spelling, .Union, [], layout⟩) :: ctx.compStore })
  | .EnumDecl =>
    let kind := enum_kind ctx.options.override_enum_ty (world.type c.enumType).kind
    let h := ctx.nextId
    (Global.GEnumDecl h,
     { ctx with nextId := h + 1,
                enumStore := (h, ⟨spelling, kind, [], layout⟩) :: ctx.enumStore })
  | .TypedefDecl =>
    let h := ctx.nextId
    (Global.GType h,
     { ctx with nextId := h + 1,
                typeStore := (h, ⟨spelling, .TVoid⟩) :: ctx.typeStore })
  | .VarDecl =>
    let h := ctx.nextId
    (Global.GVar h,
     { ctx with nextId := h + 1,
                varStore := (h, ⟨spelling, .TVoid, false⟩) :: ctx.varStore })
  | .FunctionDecl =>
    let h := ctx.nextId
    (Global.GFunc h,
     { ctx with nextId := h + 1,
                varStore := (h, ⟨spelling, .TVoid, false⟩) :: ctx.varStore })
  | _ => (Global.GOther, ctx)

/-- `decl_name`: the declaration registry.  Canonicalizes the cursor, returns
the registered `Global` if the canonical id was seen before, otherwise
constructs the empty shell for the declaration kind (allocating a fresh store
id), registers it, and — only on this first resolution — pushes the canonical
cursor onto the builtin deferral queue when its spelling is a configured
builtin name. -/
def decl_name (world : World) (ctx : ClangParserCtx) (cursorId : Nat) :
    Global × ClangParserCtx :=
  let cid := (world.cursor cursorId).canonical
  match lookupG ctx.name cid with
  | some g => (g, ctx)
  | none =>
    let fd := fresh_decl world ctx cid
    let glob := fd.1
    let ctx2 : ClangParserCtx := { fd.2 with name := (cid, glob) :: fd.2.name }
    let ctx3 : ClangParserCtx :=
      if (world.cursor cid).spelling ∈ ctx2.options.builtin_names then
        { ctx2 with builtin_defs := ctx2.builtin_defs ++ [cid] }
      else ctx2
    (glob, ctx3)

/-- `get_abi`: the ABI resolver; `Except.error` models the `panic!` arm. -/
def get_abi (cc : CXCallingConv) : Except String Abi :=
  match cc with
  | .Default => .ok .C
  | .C => .ok .C
  | .X86StdCall => .ok .Stdcall
  | .X86FastCall => .ok .Fastcall
  | .AAPCS => .ok .Aapcs
  | .X86_64Win64 => .ok .Win64
  | .other n => .error ("unsupported calling convention: " ++ toString n)

/-- `shell_decl` models the source's forward-declaration shell registration
(`opaque_decl` there): resolve through the registry and append the result to
the globals. -/
def shell_decl (world : World) (ctx : ClangParserCtx) (cursorId : Nat) :
    ClangParserCtx :=
  let (g, ctx1) := decl_name world ctx cursorId
  { ctx1 with globals := ctx1.globals ++ [g] }

/-- Which branch of `fwd_decl` applies: the cursor is its own definition, the
definition is absent (shell registration), or the definition lives elsewhere
(skip).  The `f` continuation of the source is inlined at each call site. -/
inductive FwdAction where
  | definition
  | shell
  | skip
deriving DecidableEq

/-- The branch selection of `fwd_decl`. -/
def fwd_decl_branch (world : World) (cursorId : Nat) : FwdAction :=
  let defId := (world.cursor cursorId).definition
  if cursorId = defId then .definition
  else if (world.cursor defId).kind = .NoDeclFound ∨
          (world.cursor defId).kind = .InvalidFile then .shell
  else .skip

/-- `conv_decl_ty`: IR type of a declaration cursor, via the registry. -/
def conv_decl_ty (world : World) (ctx : ClangParserCtx) (cursorId : Nat) :
    Except String (ILType × ClangParserCtx) :=
  match (world.cursor cursorId).kind with
  | .StructDecl =>
    let (decl, ctx1) := decl_name world ctx cursorId
    do let h ← decl.compinfo; .ok (.TComp h, ctx1)
  | .UnionDecl =>
    let (decl, ctx1) := decl_name world ctx cursorId
    do let h ← decl.compinfo; .ok (.TComp h, ctx1)
  | .EnumDecl =>
    let (decl, ctx1) := decl_name world ctx cursorId
    do let h ← decl.enuminfo; .ok (.TEnum h, ctx1)
  | .TypedefDecl =>
    let (decl, ctx1) := decl_name world ctx cursorId
    do let h ← decl.typeinfo; .ok (.TNamed h, ctx1)
  | _ => .ok (.TVoid, ctx)

/-- `shell_ty` models the source's probe of a typedef's underlying
record/enum type for a missing definition (`opaque_ty` there). -/
def shell_ty (world : World) (ctx : ClangParserCtx) (tyId : Nat) :
    ClangParserCtx :=
  let t := world.type tyId
  if t.kind = .Record ∨ t.kind = .Enum then
    let declId := t.decl
    let defId := (world.cursor declId).definition
    if (world.cursor defId).kind = .NoDeclFound ∨
       (world.cursor defId).kind = .InvalidFile then
      shell_decl world ctx declId
    else ctx
  else ctx

/-- Modelled from the spec: `type_to_str`, the AST provider's debug name of a
type kind (external to `src/`; only its output string is observed, inside
diagnostic messages). -/
def type_to_str : CXTypeKind → String
  | .other n => "other kind " ++ toString n
  | _ => "known kind"

/-- The preceding-member check of the folding heuristic: the last member of
the in-progress sequence is a nested composite wrapping exactly the handle
`h` (the source's pointer-identity comparison of the borrowed records). -/
def lastIsComp (members : List CompMember) (h : Nat) : Bool :=
  match members.getLast? with
  | some (.Comp c) => c = h
  | _ => false

/-- The composite-folding test of `visit_composite` (lines 334–345): the raw
foreign kind and the converted IR type correspond (unexposed / bare composite,
pointer / pointer-to-composite, constant-array / array-of-composite) and the
last member is a nested composite with the identical handle. -/
def is_composite_fn (rawKind : CXTypeKind) (ty : ILType)
    (members : List CompMember) : Bool :=
  match rawKind, ty with
  | .Unexposed, .TComp h => lastIsComp members h
  | .Pointer, .TPtr (.TComp h) _ _ => lastIsComp members h
  | .ConstantArray, .TArray (.TComp h) _ _ => lastIsComp members h
  | _, _ => false

/-- The member-list update of the field branch of `visit_composite`: fold the
preceding nested composite into a combined entry when the folding test holds
(popping; the mismatch arm is the source's `panic!`), otherwise append a
plain field. -/
def field_update (rawKind : CXTypeKind) (ty : ILType) (field : FieldInfo)
    (members : List CompMember) : Except String (List CompMember) :=
  if is_composite_fn rawKind ty members then
    match members.getLast? with
    | some (.Comp c) => .ok (members.dropLast ++ [.CompField c field])
    | _ => .error "unreachable"
  else .ok (members ++ [.Field field])

/-- `visit_enum`: record an enum constant child as an `(name, value)` item. -/
def visit_enum (world : World) (cursorId : Nat) (items : List EnumItem) :
    List EnumItem :=
  let c := world.cursor cursorId
  if c.kind = .EnumConstantDecl then items ++ [⟨c.spelling, c.enumVal⟩]
  else items

/-- Fold `visit_enum` over the children of an enum declaration, writing into
the enum record's item list through its handle. -/
def visit_enum_children (world : World) (ids : List Nat) (h : Nat)
    (ctx : ClangParserCtx) : ClangParserCtx :=
  match ids with
  | [] => ctx
  | i :: rest =>
    let items := ((lookupStore ctx.enumStore h).getD ⟨"", .IInt, [], ⟨0, 0⟩⟩).items
    let items1 := visit_enum world i items
    let ctx1 := { ctx with
      enumStore := updateStore ctx.enumStore h (fun e => { e with items := items1 }) }
    visit_enum_children world rest h ctx1

mutual

/-- `conv_ty`: the type converter, dispatching on the foreign type kind. -/
def conv_ty (fuel : Nat) (world : World) (ctx : ClangParserCtx)
    (tyId : Nat) (cursorId : Nat) : Except String (ILType × ClangParserCtx) :=
  match fuel with
  | 0 => .error "fuel"
  | fuel + 1 =>
    let t := world.type tyId
    let layout : Layout := ⟨t.size, t.align⟩
    match t.kind with
    | .Void | .Invalid => .ok (.TVoid, ctx)
    | .Bool => .ok (.TInt .IBool layout, ctx)
    | .SChar | .Char_S => .ok (.TInt .ISChar layout, ctx)
    | .UChar | .Char_U => .ok (.TInt .IUChar layout, ctx)
    | .UShort => .ok (.TInt .IUShort layout, ctx)
    | .UInt => .ok (.TInt .IUInt layout, ctx)
    | .ULong => .ok (.TInt .IULong layout, ctx)
    | .ULongLong => .ok (.TInt .IULongLong layout, ctx)
    | .Short => .ok (.TInt .IShort layout, ctx)
    | .Int => .ok (.TInt .IInt layout, ctx)
    | .Long => .ok (.TInt .ILong layout, ctx)
    | .LongLong => .ok (.TInt .ILongLong layout, ctx)
    | .Float => .ok (.TFloat .FFloat layout, ctx)
    | .Double => .ok (.TFloat .FDouble layout, ctx)
    | .LongDouble => .ok (.TFloat .FDouble layout, ctx)
    | .Pointer => conv_ptr_ty fuel world ctx t.pointee cursorId layout
    | .VariableArray | .DependentSizedArray | .IncompleteArray =>
      conv_ptr_ty fuel world ctx t.elem cursorId layout
    | .Record | .Typedef | .Unexposed | .Enum =>
      conv_decl_ty world ctx t.decl
    | .ConstantArray => do
      let (et, ctx1) ← conv_ty fuel world ctx t.elem cursorId
      .ok (.TArray et t.arraySize layout, ctx1)
    | _ =>
      let fail := ctx.options.fail_on_unknown_type
      .ok (.TVoid,
        log_err_warn ctx
          ("unsupported type `" ++ type_to_str t.kind ++ "` ("
            ++ (world.cursor cursorId).locString ++ ")")
          fail)

/-- `conv_ptr_ty`: pointer conversion, special-casing function pointees. -/
def conv_ptr_ty (fuel : Nat) (world : World) (ctx : ClangParserCtx)
    (tyId : Nat) (cursorId : Nat) (layout : Layout) :
    Except String (ILType × ClangParserCtx) :=
  match fuel with
  | 0 => .error "fuel"
  | fuel + 1 =>
    let t := world.type tyId
    let is_const := t.isConst
    match t.kind with
    | .Void => .ok (.TPtr .TVoid is_const layout, ctx)
    | .Unexposed | .FunctionProto | .FunctionNoProto =>
      let retId := t.retType
      let declId := t.decl
      if (world.type retId).kind ≠ .Invalid then do
        let (args_lst, ctx1) ←
          conv_parms fuel world (world.cursor cursorId).children ctx
        let (ret_ty, ctx2) ← conv_ty fuel world ctx1 retId cursorId
        let abi ← get_abi t.callConv
        .ok (.TFunc ret_ty args_lst t.isVariadic abi, ctx2)
      else if (world.cursor declId).kind ≠ .NoDeclFound then do
        let (dt, ctx1) ← conv_decl_ty world ctx declId
        .ok (.TPtr dt is_const layout, ctx1)
      else .ok (.TPtr .TVoid is_const layout, ctx)
    | .Typedef =>
      let declId := t.decl
      let defTyId := (world.cursor declId).typedefType
      if (world.type defTyId).kind = .FunctionProto ∨
         (world.type defTyId).kind = .FunctionNoProto then do
        let (inner, ctx1) ← conv_ptr_ty fuel world ctx defTyId cursorId layout
        .ok (.TPtr inner is_const layout, ctx1)
      else do
        let (inner, ctx1) ← conv_ty fuel world ctx tyId cursorId
        .ok (.TPtr inner is_const layout, ctx1)
    | _ => do
      let (inner, ctx1) ← conv_ty fuel world ctx tyId cursorId
      .ok (.TPtr inner is_const layout, ctx1)

/-- The parameter-recovery loop of `conv_ptr_ty`: visit the originating
cursor's children, converting each parameter declaration (the cursor passed
to `conv_ty` is the parameter child itself). -/
def conv_parms (fuel : Nat) (world : World) (ids : List Nat)
    (ctx : ClangParserCtx) :
    Except String (List (String × ILType) × ClangParserCtx) :=
  match fuel with
  | 0 => .error "fuel"
  | fuel + 1 =>
    match ids with
    | [] => .ok ([], ctx)
    | i :: rest =>
      let c := world.cursor i
      if c.kind = .ParmDecl then do
        let (ty, ctx1) ← conv_ty fuel world ctx c.curType i
        let (restL, ctx2) ← conv_parms fuel world rest ctx1
        .ok ((c.spelling, ty) :: restL, ctx2)
      else conv_parms fuel world rest ctx

/-- The argument loop of the function branch of `visit_top`: convert each
argument cursor's type (the cursor passed to `conv_ty` is the function). -/
def conv_args (fuel : Nat) (world : World) (ids : List Nat) (fnCursor : Nat)
    (ctx : ClangParserCtx) :
    Except String (List (String × ILType) × ClangParserCtx) :=
  match fuel with
  | 0 => .error "fuel"
  | fuel + 1 =>
    match ids with
    | [] => .ok ([], ctx)
    | i :: rest => do
      let arg := world.cursor i
      let (ty, ctx1) ← conv_ty fuel world ctx arg.curType fnCursor
      let (restL, ctx2) ← conv_args fuel world rest fnCursor ctx1
      .ok ((arg.spelling, ty) :: restL, ctx2)

/-- `visit_composite`: one step of the composite member visitor, producing
the updated member list (the source's `&mut Vec<CompMember>`) and context.
The `fwd_decl` continuation of the source is inlined on the nested branch. -/
def visit_composite (fuel : Nat) (world : World) (cursorId parentId : Nat)
    (ctx : ClangParserCtx) (members : List CompMember) :
    Except String (List CompMember × ClangParserCtx) :=
  match fuel with
  | 0 => .error "fuel"
  | fuel + 1 =>
    let c := world.cursor cursorId
    match c.kind with
    | .FieldDecl => do
      let (ty, ctx1) ← conv_ty fuel world ctx c.curType cursorId
      let name := c.spelling
      let bit := c.bitWidth
      let ctx2 :=
        if bit ≠ none then
          log_err_warn ctx1
            ("unsupported bitfield `" ++ name ++ "` in `"
              ++ (world.cursor parentId).spelling ++ "` (" ++ c.locString ++ ")")
            ctx1.options.fail_on_bitfield
        else ctx1
      let field : FieldInfo := ⟨name, ty, bit⟩
      let members1 ← field_update (world.type c.curType).kind ty field members
      .ok (members1, ctx2)
    | .StructDecl | .UnionDecl =>
      match fwd_decl_branch world cursorId with
      | .definition => do
        let (decl, ctx1) := decl_name world ctx cursorId
        let h ← decl.compinfo
        let ctx2 ← visit_comp_children fuel world c.children h cursorId ctx1
        .ok (members ++ [.Comp h], ctx2)
      | .shell => .ok (members, shell_decl world ctx cursorId)
      | .skip => .ok (members, ctx)
    | _ => .ok (members, ctx)

/-- Fold `visit_composite` over the children of a composite definition,
reading and writing the member list through the composite's handle. -/
def visit_comp_children (fuel : Nat) (world : World) (ids : List Nat)
    (h : Nat) (parentId : Nat) (ctx : ClangParserCtx) :
    Except String ClangParserCtx :=
  match fuel with
  | 0 => .error "fuel"
  | fuel + 1 =>
    match ids with
    | [] => .ok ctx
    | i :: rest => do
      let ms := ((lookupStore ctx.compStore h).getD ⟨"", .Struct, [], ⟨0, 0⟩⟩).members
      let (ms1, ctx1) ← visit_composite fuel world i parentId ctx ms
      let ctx2 := { ctx1 with
        compStore := updateStore ctx1.compStore h (fun ci => { ci with members := ms1 }) }
      visit_comp_children fuel world rest h parentId ctx2

/-- `visit_top`: the top-level dispatch on one translation-unit child.  The
`fwd_decl` continuations are inlined on the struct/union and enum branches. -/
def visit_top (fuel : Nat) (world : World) (cursorId : Nat)
    (ctx : ClangParserCtx) : Except String ClangParserCtx :=
  match fuel with
  | 0 => .error "fuel"
  | fuel + 1 =>
    if !match_pattern world ctx cursorId then .ok ctx
    else
      let c := world.cursor cursorId
      match c.kind with
      | .StructDecl | .UnionDecl =>
        match fwd_decl_branch world cursorId with
        | .definition => do
          let (decl, ctx1) := decl_name world ctx cursorId
          let h ← decl.compinfo
          let ctx2 ← visit_comp_children fuel world c.children h cursorId ctx1
          .ok { ctx2 with globals := ctx2.globals ++ [Global.GComp h] }
        | .shell => .ok (shell_decl world ctx cursorId)
        | .skip => .ok ctx
      | .EnumDecl =>
        match fwd_decl_branch world cursorId with
        | .definition => do
          let (decl, ctx1) := decl_name world ctx cursorId
          let h ← decl.enuminfo
          let ctx2 := visit_enum_children world c.children h ctx1
          .ok { ctx2 with globals := ctx2.globals ++ [Global.GEnum h] }
        | .shell => .ok (shell_decl world ctx cursorId)
        | .skip => .ok ctx
      | .FunctionDecl =>
        if c.linkage ≠ .External ∧ c.linkage ≠ .UniqueExternal then .ok ctx
        else do
          let (args_lst, ctx1) ← conv_args fuel world c.args cursorId ctx
          let t := world.type c.curType
          let (ret_ty, ctx2) ← conv_ty fuel world ctx1 c.retType cursorId
          let abi ← get_abi t.callConv
          let (func, ctx3) := decl_name world ctx2 cursorId
          let h ← func.varinfo
          let ctx4 := { ctx3 with
            varStore := updateStore ctx3.varStore h
              (fun vi => { vi with ty := .TFunc ret_ty args_lst t.isVariadic abi }) }
          .ok { ctx4 with globals := ctx4.globals ++ [func] }
      | .VarDecl =>
        if c.linkage ≠ .External ∧ c.linkage ≠ .UniqueExternal then .ok ctx
        else do
          let (ty, ctx1) ← conv_ty fuel world ctx c.curType cursorId
          let (var, ctx2) := decl_name world ctx1 cursorId
          let h ← var.varinfo
          let ctx3 := { ctx2 with
            varStore := updateStore ctx2.varStore h
              (fun vi => { vi with ty := ty,
                                   is_const := (world.type c.curType).isConst }) }
          .ok { ctx3 with globals := ctx3.globals ++ [var] }
      | .TypedefDecl => do
        let under0 := c.typedefType
        let underTy :=
          if (world.type under0).kind = .Unexposed then (world.type under0).canonicalType
          else under0
        let (ty, ctx1) ← conv_ty fuel world ctx underTy cursorId
        let (typedef, ctx2) := decl_name world ctx1 cursorId
        let h ← typedef.typeinfo
        let ctx3 := { ctx2 with
          typeStore := updateStore ctx2.typeStore h (fun ti => { ti with ty := ty }) }
        let ctx4 := { ctx3 with globals := ctx3.globals ++ [typedef] }
        .ok (shell_ty world ctx4 underTy)
      | .FieldDecl => .ok ctx
      | _ => .ok ctx

end

/-- The primary traversal: `visit_top` over the translation unit's children. -/
def run_visit_all (fuel : Nat) (world : World) (ids : List Nat)
    (ctx : ClangParserCtx) : Except String ClangParserCtx :=
  match ids with
  | [] => .ok ctx
  | i :: rest => do
    let ctx1 ← visit_top fuel world i ctx
    run_visit_all fuel world rest ctx1

/-- The deferral-queue drain of `parse`: while the queue is non-empty, remove
its first cursor and re-enter `visit_top` on that cursor's definition. -/
def drain_builtins (fuel : Nat) (world : World) (ctx : ClangParserCtx) :
    Except String ClangParserCtx :=
  match fuel with
  | 0 =>
    match ctx.builtin_defs with
    | [] => .ok ctx
    | _ :: _ => .error "fuel"
  | fuel + 1 =>
    match ctx.builtin_defs with
    | [] => .ok ctx
    | c :: rest => do
      let ctx1 ← visit_top fuel world (world.cursor c).definition
        { ctx with builtin_defs := rest }
      drain_builtins fuel world ctx1

/-- The diagnostics loop of `parse`: log every provider diagnostic, as an
error when its severity reaches `CXDiagnostic_Error`. -/
def run_diags (ctx : ClangParserCtx) (ds : List Diag) : ClangParserCtx :=
  ds.foldl (fun c d => log_err_warn c d.msg (decide (CXDiagnostic_Error ≤ d.severity))) ctx

/-- The outcome of `parse`: the Global sequence, or the `Err(())` failure. -/
inductive ParseRes where
  | ok (globals : List Global)
  | err

/-- `parse`: the orchestrator.  Session acquisition failures return `err`
directly (their log entry does not touch the error counter and the context is
dropped); `emit_ast` runs an external debug dump with no effect on the
context; disposal of the unit and index has no model effect. -/
def parse (fuel : Nat) (world : World) (sess : Session)
    (options : ClangParserOptions) : Except String ParseRes :=
  let ctx := initCtx options
  if sess.indexNull then .ok ParseRes.err
  else if sess.unitNull then .ok ParseRes.err
  else
    let ctx := run_diags ctx sess.diags
    if ctx.errCount > 0 then .ok ParseRes.err
    else do
      let ctx1 ← run_visit_all fuel world sess.rootChildren ctx
      let ctx2 ← drain_builtins fuel world ctx1
      if ctx2.errCount > 0 then .ok ParseRes.err
      else .ok (ParseRes.ok ctx2.globals)

/-- The foreign type kinds handled by a dedicated arm of `conv_ty`; the rest
fall to its unsupported-type arm. -/
def conv_handled : CXTypeKind → Bool
  | .FunctionProto => false
  | .FunctionNoProto => false
  | .other _ => false
  | _ => true

/-! ### Concrete worlds used by the witness and counterexample theorems -/

/-- A cursor with neutral data, overridden field-wise below. -/
def baseCursor : CursorData :=
  { kind := .other 0, spelling := "", file := none, locString := "", canonical := 0,
    definition := 0, curType := 0, retType := 0, enumType := 0, enumVal := 0,
    bitWidth := none, linkage := .other 0, typedefType := 0, children := [], args := [] }

/-- A foreign type with neutral data (kind `Void`). -/
def baseType : CXTypeData :=
  { kind := .Void, size := 0, align := 0, isConst := false, isVariadic := false,
    pointee := 0, elem := 0, arraySize := 0, retType := 0, callConv := .C, decl := 0,
    canonicalType := 0 }

/-- Default configuration: no builtins, no filters, no overrides. -/
def baseOptions : ClangParserOptions :=
  { builtin_names := [], builtins := false, match_pat := [], emit_ast := false,
    fail_on_bitfield := false, fail_on_unknown_type := false, override_enum_ty := none,
    clang_args := [] }

/-- Two distinct canonical struct declarations. -/
def w1 : World :=
  { cursor := fun i =>
      if i = 0 then { baseCursor with kind := .StructDecl, spelling := "A", canonical := 0 }
      else { baseCursor with kind := .StructDecl, spelling := "B", canonical := 1 },
    type := fun _ => baseType }

/-- A field declaration (cursor 5) of unexposed foreign type 1 whose
declaration is the anonymous struct cursor 6. -/
def w2 : World :=
  { cursor := fun i =>
      if i = 5 then { baseCursor with kind := .FieldDecl, spelling := "bar",
                                      canonical := 5, curType := 1 }
      else if i = 6 then { baseCursor with kind := .StructDecl, canonical := 6,
                                           curType := 2 }
      else baseCursor,
    type := fun i =>
      if i = 1 then { baseType with kind := .Unexposed, decl := 6 }
      else if i = 2 then { baseType with size := 4, align := 4 }
      else baseType }

/-- A typedef (cursor 1, foreign type 1) whose underlying type 2 is a
function prototype returning void with no parameters. -/
def w3 : World :=
  { cursor := fun i =>
      if i = 1 then { baseCursor with kind := .TypedefDecl, canonical := 1,
                                      typedefType := 2 }
      else baseCursor,
    type := fun i =>
      if i = 1 then { baseType with kind := .Typedef, decl := 1 }
      else if i = 2 then { baseType with kind := .FunctionProto, retType := 0,
                                         callConv := .C }
      else baseType }

/-- An enum declaration whose foreign underlying type (type 3) is unsigned
short. -/
def w4 : World :=
  { cursor := fun _ => { baseCursor with kind := .EnumDecl, spelling := "E",
                                         canonical := 0, curType := 2, enumType := 3 },
    type := fun i =>
      if i = 2 then { baseType with size := 4, align := 4 }
      else if i = 3 then { baseType with kind := .UShort }
      else baseType }

/-- A declaration located in file "abcd". -/
def w7 : World :=
  { cursor := fun _ => { baseCursor with file := some "abcd" },
    type := fun _ => baseType }

/-- A foreign type of unrecognized kind. -/
def w8 : World :=
  { cursor := fun _ => { baseCursor with locString := "L" },
    type := fun _ => { baseType with kind := .other 7 } }

/-- A variable declaration spelled "foo". -/
def w9 : World :=
  { cursor := fun _ => { baseCursor with kind := .VarDecl, spelling := "foo",
                                         canonical := 0 },
    type := fun _ => baseType }

/-- Configuration with two path substrings. -/
def opts7 : ClangParserOptions := { baseOptions with match_pat := ["bc", "zz"] }

/-- Configuration with one builtin name. -/
def opts9 : ClangParserOptions := { baseOptions with builtin_names := ["foo"] }

/-! ### Registry helper lemmas -/

/-- The store ids held by the registered globals of a registry. -/
def reg_handles (l : List (Nat × Global)) : List Nat :=
  l.filterMap (fun p => p.2.handle?)

/-- Well-formedness of the registry relative to the allocator: every
registered handle was allocated (is below `nextId`) and no two registered
globals share a handle. -/
def RegistryInv (ctx : ClangParserCtx) : Prop :=
  (∀ h ∈ reg_handles ctx.name, h < ctx.nextId) ∧ (reg_handles ctx.name).Nodup

theorem lookupG_mem {l : List (Nat × Global)} {k : Nat} {g : Global}
    (h : lookupG l k = some g) : (k, g) ∈ l := by
  induction l with
  | nil => simp [lookupG] at h
  | cons p rest ih =>
    obtain ⟨k1, g1⟩ := p
    by_cases hk : k = k1
    · subst hk
      simp [lookupG] at h
      simp [h]
    · simp [lookupG, hk] at h
      exact List.mem_cons_of_mem _ (ih h)

theorem mem_reg_handles {l : List (Nat × Global)} {k : Nat} {g : Global} {h : Nat}
    (hm : (k, g) ∈ l) (hh : g.handle? = some h) : h ∈ reg_handles l := by
  simp only [reg_handles, List.mem_filterMap]
  exact ⟨(k, g), hm, hh⟩

theorem lookup_distinct_handles {l : List (Nat × Global)}
    (nd : (reg_handles l).Nodup) {k1 k2 : Nat} {g1 g2 : Global} {h1 h2 : Nat}
    (hk : k1 ≠ k2)
    (l1 : lookupG l k1 = some g1) (l2 : lookupG l k2 = some g2)
    (hh1 : g1.handle? = some h1) (hh2 : g2.handle? = some h2) : h1 ≠ h2 := by
  induction l with
  | nil => simp [lookupG] at l1
  | cons p rest ih =>
    obtain ⟨k, g⟩ := p
    have ndrest : (reg_handles rest).Nodup := by
      revert nd
      simp only [reg_handles, List.filterMap_cons]
      cases g.handle? with
      | none => exact id
      | some h => exact List.Nodup.of_cons
    by_cases e1 : k1 = k
    · subst e1
      simp [lookupG] at l1
      subst l1
      have hne : k2 ≠ k1 := fun e => hk e.symm
      simp [lookupG, hne] at l2
      have h2mem : h2 ∈ reg_handles rest :=
        mem_reg_handles (lookupG_mem l2) hh2
      have hcons : reg_handles ((k1, g) :: rest) = h1 :: reg_handles rest := by
        simp [reg_handles, List.filterMap_cons, hh1]
      rw [hcons] at nd
      exact fun e => (List.nodup_cons.mp nd).1 (e ▸ h2mem)
    · by_cases e2 : k2 = k
      · subst e2
        simp [lookupG] at l2
        subst l2
        simp [lookupG, e1] at l1
        have h1mem : h1 ∈ reg_handles rest :=
          mem_reg_handles (lookupG_mem l1) hh1
        have hcons : reg_handles ((k2, g) :: rest) = h2 :: reg_handles rest := by
          simp [reg_handles, List.filterMap_cons, hh2]
        rw [hcons] at nd
        exact fun e => (List.nodup_cons.mp nd).1 (e ▸ h1mem)
      · simp [lookupG, e1] at l1
        simp [lookupG, e2] at l2
        exact ih ndrest l1 l2

theorem fresh_decl_shape (w : World) (ctx : ClangParserCtx) (cid : Nat) :
    ((fresh_decl w ctx cid).1.handle? = some ctx.nextId ∧
     (fresh_decl w ctx cid).2.nextId = ctx.nextId + 1) ∨
    ((fresh_decl w ctx cid).1 = .GOther ∧ (fresh_decl w ctx cid).2 = ctx) := by
  cases hk : (w.cursor cid).kind <;>
    simp [fresh_decl, hk, Global.handle?]

theorem fresh_decl_name (w : World) (ctx : ClangParserCtx) (cid : Nat) :
    (fresh_decl w ctx cid).2.name = ctx.name := by
  cases hk : (w.cursor cid).kind <;> simp [fresh_decl, hk]

theorem fresh_decl_options (w : World) (ctx : ClangParserCtx) (cid : Nat) :
    (fresh_decl w ctx cid).2.options = ctx.options := by
  cases hk : (w.cursor cid).kind <;> simp [fresh_decl, hk]

theorem fresh_decl_builtin_defs (w : World) (ctx : ClangParserCtx) (cid : Nat) :
    (fresh_decl w ctx cid).2.builtin_defs = ctx.builtin_defs := by
  cases hk : (w.cursor cid).kind <;> simp [fresh_decl, hk]

theorem decl_name_occupied {w : World} {ctx : ClangParserCtx} {a : Nat} {g : Global}
    (h : lookupG ctx.name ((w.cursor a).canonical) = some g) :
    decl_name w ctx a = (g, ctx) := by
  simp [decl_name, h]

theorem decl_name_vacant_fst {w : World} {ctx : ClangParserCtx} {a : Nat}
    (h : lookupG ctx.name ((w.cursor a).canonical) = none) :
    (decl_name w ctx a).1 = (fresh_decl w ctx ((w.cursor a).canonical)).1 := by
  simp [decl_name, h]

theorem decl_name_vacant_name {w : World} {ctx : ClangParserCtx} {a : Nat}
    (h : lookupG ctx.name ((w.cursor a).canonical) = none) :
    (decl_name w ctx a).2.name =
      ((w.cursor a).canonical, (fresh_decl w ctx ((w.cursor a).canonical)).1)
        :: ctx.name := by
  simp only [decl_name, h]
  split <;> simp [fresh_decl_name]

theorem decl_name_vacant_nextId {w : World} {ctx : ClangParserCtx} {a : Nat}
    (h : lookupG ctx.name ((w.cursor a).canonical) = none) :
    (decl_name w ctx a).2.nextId =
      (fresh_decl w ctx ((w.cursor a).canonical)).2.nextId := by
  simp only [decl_name, h]
  split <;> rfl

theorem decl_name_vacant_builtin_defs {w : World} {ctx : ClangParserCtx} {a : Nat}
    (h : lookupG ctx.name ((w.cursor a).canonical) = none) :
    (decl_name w ctx a).2.builtin_defs =
      (if (w.cursor ((w.cursor a).canonical)).spelling ∈ ctx.options.builtin_names
       then ctx.builtin_defs ++ [(w.cursor a).canonical]
       else ctx.builtin_defs) := by
  simp only [decl_name, h, fresh_decl_options]
  split <;> simp [fresh_decl_builtin_defs]

theorem decl_name_registers (w : World) (ctx : ClangParserCtx) (a : Nat) :
    lookupG (decl_name w ctx a).2.name ((w.cursor a).canonical) =
      some (decl_name w ctx a).1 := by
  cases hl : lookupG ctx.name ((w.cursor a).canonical) with
  | none =>
    rw [decl_name_vacant_name hl, decl_name_vacant_fst hl]
    simp [lookupG]
  | some g =>
    rw [decl_name_occupied hl]
    exact hl

theorem decl_name_inv {w : World} {ctx : ClangParserCtx} {a : Nat}
    (hI : RegistryInv ctx) : RegistryInv (decl_name w ctx a).2 := by
  cases hl : lookupG ctx.name ((w.cursor a).canonical) with
  | some g => rw [decl_name_occupied hl]; exact hI
  | none =>
    obtain ⟨hb, hnd⟩ := hI
    have hname := decl_name_vacant_name hl
    have hnext := decl_name_vacant_nextId hl
    rcases fresh_decl_shape w ctx ((w.cursor a).canonical) with ⟨hh, hn⟩ | ⟨ho, hctx⟩
    · constructor
      · intro h hmem
        rw [hname] at hmem
        rw [hnext, hn]
        simp only [reg_handles, List.filterMap_cons, hh] at hmem
        rcases List.mem_cons.mp hmem with e | hmem'
        · omega
        · have := hb h hmem'
          omega
      · rw [hname]
        simp only [reg_handles, List.filterMap_cons, hh]
        exact List.nodup_cons.mpr ⟨fun hc => absurd (hb _ hc) (by omega), hnd⟩
    · constructor
      · intro h hmem
        rw [hname] at hmem
        rw [hnext, hctx]
        simp only [reg_handles, List.filterMap_cons, ho, Global.handle?] at hmem
        exact hb h hmem
      · rw [hname]
        simp only [reg_handles, List.filterMap_cons, ho, Global.handle?]
        exact hnd

/-! ### Claims -/

/-- C1: for every pair of cursors sharing the same canonical declaration
identity, the declaration registry (`decl_name`) returns the identical handle
regardless of the order or number of lookups, and distinct canonical
identities never share a handle (the registry is a bijection from
canonical-declaration identity to handle); the registry invariant is
preserved, so this holds across any sequence of lookups. -/
theorem decl_name_bijection (w : World) (ctx : ClangParserCtx) (a b : Nat)
    (hI : RegistryInv ctx) :
    RegistryInv (decl_name w ctx a).2 ∧
    ((w.cursor a).canonical = (w.cursor b).canonical →
      (decl_name w (decl_name w ctx a).2 b).1 = (decl_name w ctx a).1) ∧
    ((w.cursor a).canonical ≠ (w.cursor b).canonical →
      ∀ h1 h2, (decl_name w ctx a).1.handle? = some h1 →
        (decl_name w (decl_name w ctx a).2 b).1.handle? = some h2 → h1 ≠ h2) := by
  have hI1 : RegistryInv (decl_name w ctx a).2 := decl_name_inv hI
  refine ⟨hI1, ?_, ?_⟩
  · intro hcan
    have hreg := decl_name_registers w ctx a
    rw [hcan] at hreg
    rw [decl_name_occupied hreg]
  · intro hcan h1 h2 hh1 hh2
    have hreg := decl_name_registers w ctx a
    have hmem1 : h1 ∈ reg_handles (decl_name w ctx a).2.name :=
      mem_reg_handles (lookupG_mem hreg) hh1
    cases hl2 : lookupG (decl_name w ctx a).2.name ((w.cursor b).canonical) with
    | some g2 =>
      rw [decl_name_occupied hl2] at hh2
      exact lookup_distinct_handles hI1.2 hcan hreg hl2 hh1 hh2
    | none =>
      rw [decl_name_vacant_fst hl2] at hh2
      rcases fresh_decl_shape w (decl_name w ctx a).2 ((w.cursor b).canonical) with
        ⟨hh, _⟩ | ⟨ho, _⟩
      · rw [hh] at hh2
        injection hh2 with e2
        have hlt := hI1.1 h1 hmem1
        omega
      · rw [ho] at hh2
        simp [Global.handle?] at hh2

/-- C1 witness: from the empty registry, two struct declarations with
distinct canonical identities receive the distinct handles 0 and 1. -/
theorem decl_name_bijection_witness :
    RegistryInv (initCtx baseOptions) ∧
    (w1.cursor 0).canonical ≠ (w1.cursor 1).canonical ∧
    (decl_name w1 (initCtx baseOptions) 0).1.handle? = some 0 ∧
    (decl_name w1 (decl_name w1 (initCtx baseOptions) 0).2 1).1.handle? = some 1 ∧
    (0 : Nat) ≠ 1 :=
  ⟨⟨by decide, by decide⟩, by decide, by rfl, by rfl,
   (decl_name_bijection w1 (initCtx baseOptions) 0 1 ⟨by decide, by decide⟩).2.2
     (by decide) 0 1 (by rfl) (by rfl)⟩

/-- C9: a canonical declaration whose spelling is in the configured
builtin-name set is pushed onto the builtin deferral queue exactly on the
first (vacant) registry resolution — appended once at the back — and a
repeat lookup of the same canonical declaration changes nothing at all
(in particular it pushes nothing). -/
theorem decl_name_builtin_once (w : World) (ctx : ClangParserCtx) (a b : Nat) :
    (lookupG ctx.name ((w.cursor a).canonical) = none →
      (w.cursor ((w.cursor a).canonical)).spelling ∈ ctx.options.builtin_names →
      (decl_name w ctx a).2.builtin_defs =
        ctx.builtin_defs ++ [(w.cursor a).canonical]) ∧
    (lookupG ctx.name ((w.cursor a).canonical) = none →
      (w.cursor ((w.cursor a).canonical)).spelling ∉ ctx.options.builtin_names →
      (decl_name w ctx a).2.builtin_defs = ctx.builtin_defs) ∧
    (∀ g, lookupG ctx.name ((w.cursor a).canonical) = some g →
      (decl_name w ctx a).2 = ctx) ∧
    ((w.cursor b).canonical = (w.cursor a).canonical →
      (decl_name w (decl_name w ctx a).2 b).2 = (decl_name w ctx a).2) := by
  refine ⟨?_, ?_, ?_, ?_⟩
  · intro hv hm
    rw [decl_name_vacant_builtin_defs hv]
    simp [hm]
  · intro hv hm
    rw [decl_name_vacant_builtin_defs hv]
    simp [hm]
  · intro g hl
    rw [decl_name_occupied hl]
  · intro hcan
    have hreg := decl_name_registers w ctx a
    rw [← hcan] at hreg
    rw [decl_name_occupied hreg]

/-- C9 witness: the variable "foo", configured as a builtin, is appended to
the empty deferral queue on its first resolution. -/
theorem decl_name_builtin_once_witness :
    lookupG (initCtx opts9).name ((w9.cursor 0).canonical) = none ∧
    (w9.cursor ((w9.cursor 0).canonical)).spelling ∈ opts9.builtin_names ∧
    (decl_name w9 (initCtx opts9) 0).2.builtin_defs =
      (initCtx opts9).builtin_defs ++ [(w9.cursor 0).canonical] :=
  ⟨by rfl, by decide,
   (decl_name_builtin_once w9 (initCtx opts9) 0 0).1 (by rfl) (by decide)⟩

theorem decl_name_vacant_enumStore {w : World} {ctx : ClangParserCtx} {a : Nat}
    (h : lookupG ctx.name ((w.cursor a).canonical) = none) :
    (decl_name w ctx a).2.enumStore =
      (fresh_decl w ctx ((w.cursor a).canonical)).2.enumStore := by
  simp only [decl_name, h]
  split <;> rfl

/-- C4: on first (vacant) registration of an enum declaration the stored
underlying integer kind is `enum_kind` of the configured override and the
foreign enum's underlying type kind; `enum_kind` lets a configured override
always win, maps unsigned short to `IUShort`, and defaults unrecognized
underlying kinds to signed int. -/
theorem decl_name_enum_underlying (w : World) (ctx : ClangParserCtx) (a : Nat) :
    ((w.cursor ((w.cursor a).canonical)).kind = .EnumDecl →
      lookupG ctx.name ((w.cursor a).canonical) = none →
      (decl_name w ctx a).1 = .GEnumDecl ctx.nextId ∧
      lookupStore (decl_name w ctx a).2.enumStore ctx.nextId =
        some ⟨(w.cursor ((w.cursor a).canonical)).spelling,
              enum_kind ctx.options.override_enum_ty
                (w.type ((w.cursor ((w.cursor a).canonical)).enumType)).kind,
              [],
              ⟨(w.type ((w.cursor ((w.cursor a).canonical)).curType)).size,
               (w.type ((w.cursor ((w.cursor a).canonical)).curType)).align⟩⟩) ∧
    (∀ t u, enum_kind (some t) u = t) ∧
    enum_kind none .UShort = .IUShort ∧
    (∀ n, enum_kind none (.other n) = .IInt) := by
  refine ⟨?_, fun t u => rfl, rfl, fun n => rfl⟩
  intro hk hv
  have hstore := decl_name_vacant_enumStore hv
  have hfst := decl_name_vacant_fst hv
  constructor
  · rw [hfst]
    simp [fresh_decl, hk]
  · rw [hstore]
    simp [fresh_decl, hk, lookupStore]

/-- C4 witness: with no override, the enum "E" whose foreign underlying type
is unsigned short is registered with underlying kind `IUShort`. -/
theorem decl_name_enum_underlying_witness :
    (w4.cursor ((w4.cursor 0).canonical)).kind = .EnumDecl ∧
    lookupG (initCtx baseOptions).name ((w4.cursor 0).canonical) = none ∧
    lookupStore (decl_name w4 (initCtx baseOptions) 0).2.enumStore 0 =
      some ⟨"E", .IUShort, [], ⟨4, 4⟩⟩ :=
  ⟨by rfl, by rfl,
   ((decl_name_enum_underlying w4 (initCtx baseOptions) 0).1 (by rfl) (by rfl)).2⟩

/-- C6: the ABI resolver is total over the six recognized calling
conventions, returning the corresponding tag for each, and aborts fatally
(the `panic!` arm, modelled as `Except.error`) on every value outside that
set. -/
theorem get_abi_total :
    get_abi .Default = .ok .C ∧ get_abi .C = .ok .C ∧
    get_abi .X86StdCall = .ok .Stdcall ∧ get_abi .X86FastCall = .ok .Fastcall ∧
    get_abi .AAPCS = .ok .Aapcs ∧ get_abi .X86_64Win64 = .ok .Win64 ∧
    ∀ n, ∃ m, get_abi (.other n) = .error m :=
  ⟨rfl, rfl, rfl, rfl, rfl, rfl, fun _ => ⟨_, rfl⟩⟩

theorem foldl_found (name : String) (pats : List String) (acc : Bool) :
    pats.foldl (fun found pat => if strContains name pat then true else found) acc =
      (acc || pats.any (fun p => strContains name p)) := by
  induction pats generalizing acc with
  | nil => simp
  | cons p rest ih =>
    simp only [List.foldl_cons, List.any_cons]
    rw [ih]
    cases hc : strContains name p <;> simp [hc]

/-- C7: the pattern filter is a pure predicate (it returns a boolean and
leaves the context untouched by construction): with no associated source
file inclusion equals the builtins flag; with a file and an empty configured
substring list everything is included; otherwise inclusion holds iff the
file path contains at least one configured substring. -/
theorem match_pattern_any (w : World) (ctx : ClangParserCtx) (c : Nat) :
    ((w.cursor c).file = none → match_pattern w ctx c = ctx.options.builtins) ∧
    (∀ f, (w.cursor c).file = some f → ctx.options.match_pat = [] →
      match_pattern w ctx c = true) ∧
    (∀ f, (w.cursor c).file = some f → ctx.options.match_pat ≠ [] →
      (match_pattern w ctx c = true ↔
        ∃ p ∈ ctx.options.match_pat, strContains f p = true)) := by
  refine ⟨?_, ?_, ?_⟩
  · intro h
    simp [match_pattern, h]
  · intro f hf he
    simp [match_pattern, hf, he]
  · intro f hf hne
    simp only [match_pattern, hf]
    rw [if_neg hne, foldl_found]
    simp [List.any_eq_true]

/-- C7 witness: with patterns ["bc", "zz"] and file "abcd", inclusion holds
because at least one pattern ("bc") is a substring — "any" semantics. -/
theorem match_pattern_any_witness :
    (w7.cursor 0).file = some "abcd" ∧
    (initCtx opts7).options.match_pat ≠ [] ∧
    (match_pattern w7 (initCtx opts7) 0 = true ↔
      ∃ p ∈ (initCtx opts7).options.match_pat, strContains "abcd" p = true) :=
  ⟨by rfl, by decide,
   (match_pattern_any w7 (initCtx opts7) 0).2.2 "abcd" (by rfl) (by decide)⟩

theorem lastIsComp_iff (members : List CompMember) (h : Nat) :
    lastIsComp members h = true ↔
      members.getLast? = some (CompMember.Comp h) := by
  unfold lastIsComp
  split
  · rename_i c heq
    simp [heq]
  · rename_i hno
    simp
    exact fun e => hno h e

theorem field_update_fold {rawKind : CXTypeKind} {ty : ILType}
    {members : List CompMember}
    (h : is_composite_fn rawKind ty members = true) (f : FieldInfo) :
    ∃ c, members.getLast? = some (CompMember.Comp c) ∧
      field_update rawKind ty f members =
        .ok (members.dropLast ++ [.CompField c f]) := by
  have hlast : ∃ c, members.getLast? = some (CompMember.Comp c) := by
    unfold is_composite_fn at h
    split at h
    · exact ⟨_, (lastIsComp_iff _ _).mp h⟩
    · exact ⟨_, (lastIsComp_iff _ _).mp h⟩
    · exact ⟨_, (lastIsComp_iff _ _).mp h⟩
    · cases h
  obtain ⟨c, hc⟩ := hlast
  refine ⟨c, hc, ?_⟩
  simp [field_update, h, hc]

theorem field_update_plain {rawKind : CXTypeKind} {ty : ILType}
    {members : List CompMember}
    (h : is_composite_fn rawKind ty members = false) (f : FieldInfo) :
    field_update rawKind ty f members = .ok (members ++ [.Field f]) := by
  simp [field_update, h]

/-- C10: whenever the folding condition of the composite member visitor
holds, popping the member list yields the matching nested-composite entry, so
the member-list update succeeds by replacement and the `panic!` arm of the
pop (modelled as `Except.error`) is unreachable. -/
theorem field_update_no_panic (rawKind : CXTypeKind) (ty : ILType)
    (f : FieldInfo) (members : List CompMember)
    (h : is_composite_fn rawKind ty members = true) :
    (∃ c, members.getLast? = some (CompMember.Comp c) ∧
      field_update rawKind ty f members =
        .ok (members.dropLast ++ [.CompField c f])) ∧
    ∀ s, field_update rawKind ty f members ≠ .error s := by
  obtain ⟨c, hc, he⟩ := field_update_fold h f
  refine ⟨⟨c, hc, he⟩, ?_⟩
  intro s hcontra
  rw [he] at hcontra
  cases hcontra

/-- C10 witness: with an unexposed raw kind, a converted bare composite of
handle 2 and a preceding nested composite of handle 2, the pop yields that
entry and the update replaces it. -/
theorem field_update_no_panic_witness :
    is_composite_fn .Unexposed (.TComp 2) [CompMember.Comp 2] = true ∧
    field_update .Unexposed (.TComp 2) ⟨"f", .TVoid, none⟩ [CompMember.Comp 2] =
      .ok [CompMember.CompField 2 ⟨"f", .TVoid, none⟩] := by
  refine ⟨by rfl, ?_⟩
  obtain ⟨c, hc, he⟩ :=
    (field_update_no_panic .Unexposed (.TComp 2) ⟨"f", .TVoid, none⟩
      [CompMember.Comp 2] (by rfl)).1
  have hc2 : c = 2 := by
    simp [List.getLast?] at hc
    exact hc.symm
  rw [he, hc2]
  rfl

theorem is_composite_fn_iff (rk : CXTypeKind) (ty : ILType) (ms : List CompMember) :
    is_composite_fn rk ty ms = true ↔
      ((rk = .Unexposed ∧ ∃ h, ty = .TComp h ∧
          ms.getLast? = some (CompMember.Comp h)) ∨
       (rk = .Pointer ∧ ∃ h cst l, ty = .TPtr (.TComp h) cst l ∧
          ms.getLast? = some (CompMember.Comp h)) ∨
       (rk = .ConstantArray ∧ ∃ h n l, ty = .TArray (.TComp h) n l ∧
          ms.getLast? = some (CompMember.Comp h))) := by
  unfold is_composite_fn
  split
  · rename_i h
    rw [lastIsComp_iff]
    simp
  · rename_i h cst l
    rw [lastIsComp_iff]
    simp
  · rename_i h n l
    rw [lastIsComp_iff]
    simp
  · rename_i hno1 hno2 hno3
    simp only [Bool.false_eq_true, false_iff]
    rintro (⟨hrk, h, hty, _⟩ | ⟨hrk, h, cst, l, hty, _⟩ | ⟨hrk, h, n, l, hty, _⟩) <;>
      subst hrk <;> subst hty
    · exact hno1 h rfl rfl
    · exact hno2 h cst l rfl rfl
    · exact hno3 h n l rfl rfl

/-- C2: on a field declaration, `visit_composite` transforms the member list
exactly by `field_update` (with some context carrying the possible bitfield
diagnostic); the folding test holds precisely when the raw foreign kind and
the converted IR type correspond (unexposed / bare composite, pointer /
pointer-to-composite, constant-array / array-of-composite) and the preceding
member is a nested composite with the identical handle; when it holds the
preceding entry is replaced in place by a combined nested-composite-field
entry (the member count is unchanged), and in every other case a plain field
entry is appended. -/
theorem visit_composite_field (fuel : Nat) (w : World) (cursorId parentId : Nat)
    (ctx ctx1 : ClangParserCtx) (members : List CompMember) (ty : ILType)
    (hk : (w.cursor cursorId).kind = .FieldDecl)
    (hc : conv_ty fuel w ctx ((w.cursor cursorId).curType) cursorId = .ok (ty, ctx1)) :
    (∃ ctx2, visit_composite (fuel + 1) w cursorId parentId ctx members =
      (field_update (w.type ((w.cursor cursorId).curType)).kind ty
        ⟨(w.cursor cursorId).spelling, ty, (w.cursor cursorId).bitWidth⟩
        members).map (fun ms => (ms, ctx2))) ∧
    (is_composite_fn (w.type ((w.cursor cursorId).curType)).kind ty members = true ↔
      (((w.type ((w.cursor cursorId).curType)).kind = .Unexposed ∧
          ∃ h, ty = .TComp h ∧ members.getLast? = some (CompMember.Comp h)) ∨
       ((w.type ((w.cursor cursorId).curType)).kind = .Pointer ∧
          ∃ h cst l, ty = .TPtr (.TComp h) cst l ∧
            members.getLast? = some (CompMember.Comp h)) ∨
       ((w.type ((w.cursor cursorId).curType)).kind = .ConstantArray ∧
          ∃ h n l, ty = .TArray (.TComp h) n l ∧
            members.getLast? = some (CompMember.Comp h)))) ∧
    (is_composite_fn (w.type ((w.cursor cursorId).curType)).kind ty members = true →
      ∃ c, members.getLast? = some (CompMember.Comp c) ∧
        field_update (w.type ((w.cursor cursorId).curType)).kind ty
          ⟨(w.cursor cursorId).spelling, ty, (w.cursor cursorId).bitWidth⟩ members =
          .ok (members.dropLast ++
            [.CompField c ⟨(w.cursor cursorId).spelling, ty, (w.cursor cursorId).bitWidth⟩]) ∧
        (members.dropLast ++
          [CompMember.CompField c
            ⟨(w.cursor cursorId).spelling, ty, (w.cursor cursorId).bitWidth⟩]).length =
          members.length) ∧
    (is_composite_fn (w.type ((w.cursor cursorId).curType)).kind ty members = false →
      field_update (w.type ((w.cursor cursorId).curType)).kind ty
        ⟨(w.cursor cursorId).spelling, ty, (w.cursor cursorId).bitWidth⟩ members =
        .ok (members ++
          [.Field ⟨(w.cursor cursorId).spelling, ty, (w.cursor cursorId).bitWidth⟩])) := by
  refine ⟨?_, is_composite_fn_iff _ _ _, ?_, ?_⟩
  · refine ⟨if (w.cursor cursorId).bitWidth ≠ none then
        log_err_warn ctx1
          ("unsupported bitfield `" ++ (w.cursor cursorId).spelling ++ "` in `"
            ++ (w.cursor parentId).spelling ++ "` ("
            ++ (w.cursor cursorId).locString ++ ")")
          ctx1.options.fail_on_bitfield
      else ctx1, ?_⟩
    simp only [visit_composite, hk, hc]
    cases hf : field_update (w.type ((w.cursor cursorId).curType)).kind ty
        ⟨(w.cursor cursorId).spelling, ty, (w.cursor cursorId).bitWidth⟩ members with
    | ok ms => simp [hf, Except.map, bind, Except.bind]
    | error e => simp [hf, Except.map, bind, Except.bind]
  · intro hcomp
    obtain ⟨c, hcl, he⟩ := field_update_fold hcomp
      ⟨(w.cursor cursorId).spelling, ty, (w.cursor cursorId).bitWidth⟩
    refine ⟨c, hcl, he, ?_⟩
    have hne : members ≠ [] := by
      intro e
      rw [e] at hcl
      cases hcl
    have hlen : members.length ≠ 0 := fun e => hne (List.length_eq_zero.mp e)
    simp [List.length_dropLast]
    omega
  · intro hcomp
    exact field_update_plain hcomp _

/-- C2 witness: the field "bar" of unexposed foreign type converting to the
bare composite of handle 0, with the preceding member being that same nested
composite, is folded: the preceding entry is replaced by the combined entry. -/
theorem visit_composite_field_witness :
    (w2.cursor 5).kind = .FieldDecl ∧
    conv_ty 3 w2 (initCtx baseOptions) ((w2.cursor 5).curType) 5 =
      .ok (.TComp 0, (decl_name w2 (initCtx baseOptions) 6).2) ∧
    is_composite_fn (w2.type ((w2.cursor 5).curType)).kind (.TComp 0)
      [CompMember.Comp 0] = true ∧
    field_update (w2.type ((w2.cursor 5).curType)).kind (.TComp 0)
      ⟨"bar", .TComp 0, none⟩ [CompMember.Comp 0] =
      .ok ([CompMember.Comp 0].dropLast ++
        [CompMember.CompField 0 ⟨"bar", .TComp 0, none⟩]) := by
  have happ := visit_composite_field 3 w2 5 7 (initCtx baseOptions)
    (decl_name w2 (initCtx baseOptions) 6).2 [CompMember.Comp 0] (.TComp 0)
    (by rfl) (by rfl)
  refine ⟨by rfl, by rfl, by rfl, ?_⟩
  obtain ⟨c, hcl, he, _⟩ := happ.2.2.1 (by rfl)
  have hc0 : c = 0 := by
    simp [List.getLast?] at hcl
    exact hcl.symm
  rw [hc0] at he
  exact he

/-- C8: for every foreign type whose kind falls outside `conv_ty`'s handled
set, the converter returns `Void` wrapped in a successful result (the
traversal is not aborted) after recording exactly one diagnostic through
`log_err_warn` with the `fail_on_unknown_type` flag; `log_err_warn` appends
exactly one warning entry and leaves the error counter unchanged when the
flag is false, and appends exactly one error entry incrementing the counter
when it is true. -/
theorem conv_ty_unknown (fuel : Nat) (w : World) (ctx : ClangParserCtx)
    (tyId cursorId : Nat)
    (h : conv_handled (w.type tyId).kind = false) :
    (∃ m, conv_ty (fuel + 1) w ctx tyId cursorId =
      .ok (.TVoid, log_err_warn ctx m ctx.options.fail_on_unknown_type)) ∧
    (∀ c m, (log_err_warn c m false).errCount = c.errCount ∧
      (log_err_warn c m false).logs = c.logs ++ [(false, m)]) ∧
    (∀ c m, (log_err_warn c m true).errCount = c.errCount + 1 ∧
      (log_err_warn c m true).logs = c.logs ++ [(true, m)]) := by
  refine ⟨?_, fun c m => ⟨rfl, rfl⟩, fun c m => ⟨rfl, rfl⟩⟩
  refine ⟨"unsupported type `" ++ type_to_str (w.type tyId).kind ++ "` ("
    ++ (w.cursor cursorId).locString ++ ")", ?_⟩
  cases hk : (w.type tyId).kind <;>
    first
      | (simp [conv_handled, hk] at h; done)
      | simp [conv_ty, hk]

/-- C8 witness: a foreign type of unrecognized kind converts to `Void` with
one diagnostic recorded under the configured flag. -/
theorem conv_ty_unknown_witness :
    conv_handled (w8.type 0).kind = false ∧
    ∃ m, conv_ty 1 w8 (initCtx baseOptions) 0 0 =
      .ok (.TVoid, log_err_warn (initCtx baseOptions) m
        (initCtx baseOptions).options.fail_on_unknown_type) :=
  ⟨by rfl, (conv_ty_unknown 0 w8 (initCtx baseOptions) 0 0 (by rfl)).1⟩

/-- C3 (amended): when converting a pointer whose pointee is a typedef whose
underlying type is a function prototype, `conv_ptr_ty` recurses treating the
underlying type as the pointee and wraps that result in one more `Pointer`
(a pointer-to-function through the alias) — it does not equal the conversion
of a function-prototype pointee taken directly, which yields the bare
function type; when the underlying type is not a function prototype the
result is a plain `Pointer` to the converted pointee type. -/
theorem conv_ptr_ty_typedef (fuel : Nat) (w : World) (ctx : ClangParserCtx)
    (tyId cursorId : Nat) (layout : Layout)
    (hk : (w.type tyId).kind = .Typedef) :
    (((w.type ((w.cursor ((w.type tyId).decl)).typedefType)).kind = .FunctionProto ∨
      (w.type ((w.cursor ((w.type tyId).decl)).typedefType)).kind = .FunctionNoProto) →
      conv_ptr_ty (fuel + 1) w ctx tyId cursorId layout =
        (conv_ptr_ty fuel w ctx ((w.cursor ((w.type tyId).decl)).typedefType)
            cursorId layout).map
          (fun p => (.TPtr p.1 (w.type tyId).isConst layout, p.2))) ∧
    (¬((w.type ((w.cursor ((w.type tyId).decl)).typedefType)).kind = .FunctionProto ∨
       (w.type ((w.cursor ((w.type tyId).decl)).typedefType)).kind = .FunctionNoProto) →
      conv_ptr_ty (fuel + 1) w ctx tyId cursorId layout =
        (conv_ty fuel w ctx tyId cursorId).map
          (fun p => (.TPtr p.1 (w.type tyId).isConst layout, p.2))) := by
  constructor
  · intro hfn
    simp only [conv_ptr_ty, hk]
    rw [if_pos hfn]
    cases hr : conv_ptr_ty fuel w ctx ((w.cursor ((w.type tyId).decl)).typedefType)
        cursorId layout with
    | ok p =>
      cases p
      simp [hr, bind, Except.bind, Except.map]
    | error e => simp [hr, bind, Except.bind, Except.map]
  · intro hfn
    simp only [conv_ptr_ty, hk]
    rw [if_neg hfn]
    cases hr : conv_ty fuel w ctx tyId cursorId with
    | ok p =>
      cases p
      simp [hr, bind, Except.bind, Except.map]
    | error e => simp [hr, bind, Except.bind, Except.map]

/-- C3 counterexample: through the typedef alias of a void()-prototype, the
pointer conversion yields a `Pointer` around the bare function type, while
converting the prototype pointee directly yields the bare function type —
the two results are not the same value. -/
theorem conv_ptr_ty_typedef_counterexample :
    conv_ptr_ty 6 w3 (initCtx baseOptions) 1 0 ⟨8, 8⟩ =
      .ok (.TPtr (.TFunc .TVoid [] false .C) false ⟨8, 8⟩, initCtx baseOptions) ∧
    conv_ptr_ty 6 w3 (initCtx baseOptions) 2 0 ⟨8, 8⟩ =
      .ok (.TFunc .TVoid [] false .C, initCtx baseOptions) ∧
    (ILType.TPtr (.TFunc .TVoid [] false .C) false ⟨8, 8⟩ ≠
      ILType.TFunc .TVoid [] false .C) :=
  ⟨rfl, rfl, fun e => ILType.noConfusion e⟩

/-- C3 witness: the amended statement applied to the concrete typedef-of-
function-prototype world. -/
theorem conv_ptr_ty_typedef_witness :
    (w3.type 1).kind = .Typedef ∧
    ((w3.type ((w3.cursor ((w3.type 1).decl)).typedefType)).kind = .FunctionProto ∨
     (w3.type ((w3.cursor ((w3.type 1).decl)).typedefType)).kind = .FunctionNoProto) ∧
    conv_ptr_ty 6 w3 (initCtx baseOptions) 1 0 ⟨8, 8⟩ =
      (conv_ptr_ty 5 w3 (initCtx baseOptions)
          ((w3.cursor ((w3.type 1).decl)).typedefType) 0 ⟨8, 8⟩).map
        (fun p => (.TPtr p.1 (w3.type 1).isConst ⟨8, 8⟩, p.2)) :=
  ⟨rfl, Or.inl rfl,
   (conv_ptr_ty_typedef 5 w3 (initCtx baseOptions) 1 0 ⟨8, 8⟩ rfl).1 (Or.inl rfl)⟩

/-- C5: `parse` returns the failure result whenever the accumulated error
count is non-zero at its checkpoints — after the provider diagnostics are
folded in, and after the primary traversal plus the deferral-queue drain —
and it returns the Global sequence only when the final error count is zero,
in which case the result is exactly the final context's globals (the failure
result carries nothing). -/
theorem parse_error_gate (fuel : Nat) (w : World) (sess : Session)
    (opts : ClangParserOptions)
    (hix : sess.indexNull = false) (hun : sess.unitNull = false) :
    ((run_diags (initCtx opts) sess.diags).errCount > 0 →
      parse fuel w sess opts = .ok ParseRes.err) ∧
    (∀ c1 c2,
      run_visit_all fuel w sess.rootChildren (run_diags (initCtx opts) sess.diags) =
        .ok c1 →
      drain_builtins fuel w c1 = .ok c2 → c2.errCount > 0 →
      parse fuel w sess opts = .ok ParseRes.err) ∧
    (∀ gs, parse fuel w sess opts = .ok (ParseRes.ok gs) →
      ∃ c1 c2,
        run_visit_all fuel w sess.rootChildren (run_diags (initCtx opts) sess.diags) =
          .ok c1 ∧
        drain_builtins fuel w c1 = .ok c2 ∧ c2.errCount = 0 ∧ gs = c2.globals) := by
  refine ⟨?_, ?_, ?_⟩
  · intro hgt
    simp [parse, hix, hun, hgt]
  · intro c1 c2 h1 h2 hgt
    by_cases hd : (run_diags (initCtx opts) sess.diags).errCount > 0
    · simp [parse, hix, hun, hd]
    · simp [parse, hix, hun, hd, h1, h2, bind, Except.bind, hgt]
  · intro gs hp
    unfold parse at hp
    simp only [hix, hun, Bool.false_eq_true, if_false] at hp
    by_cases hd : (run_diags (initCtx opts) sess.diags).errCount > 0
    · simp [hd] at hp
    · simp only [hd, if_false] at hp
      cases h1 : run_visit_all fuel w sess.rootChildren
          (run_diags (initCtx opts) sess.diags) with
      | error e =>
        rw [h1] at hp
        simp [Bind.bind, Except.bind] at hp
      | ok c1 =>
        rw [h1] at hp
        simp only [Bind.bind, Except.bind] at hp
        cases h2 : drain_builtins fuel w c1 with
        | error e =>
          rw [h2] at hp
          simp [Except.bind] at hp
        | ok c2 =>
          rw [h2] at hp
          simp only [Except.bind] at hp
          by_cases hc : c2.errCount > 0
          · simp [hc] at hp
          · rw [if_neg hc] at hp
            refine ⟨c1, c2, rfl, h2, by omega, ?_⟩
            injection hp with hp1
            injection hp1 with hp2
            exact hp2.symm

/-- C5 witness: a session whose provider reports one error-severity
diagnostic makes `parse` fail at the diagnostics checkpoint. -/
theorem parse_error_gate_witness :
    (run_diags (initCtx baseOptions) [⟨3, "boom"⟩]).errCount > 0 ∧
    parse 2 w1 ⟨false, false, [⟨3, "boom"⟩], []⟩ baseOptions = .ok ParseRes.err :=
  ⟨by decide,
   (parse_error_gate 2 w1 ⟨false, false, [⟨3, "boom"⟩], []⟩ baseOptions rfl rfl).1
     (by decide)⟩
